import Mathlib

/-!
Verification of the closure deduplication and notification-delivery engine of
the starshipTrackingBOT repository (src/cogs/events.py), as a shallow
embedding.  Raw API records are JSON values; the background task
check_closures, the fetch helper fetch_closures_from_api, and the state
load/save helpers are modelled as pure functions over explicit state, with
Python exception flow made explicit in an Except monad.  The uuid5 hash used
for identity derivation is a fixed deterministic function of its name string
and is treated as collision-free, so the embedding uses the name string itself
as the identity value.
-/

namespace StarshipBot

/-- JSON values, the shape of items returned by the road-closure API and of the
persisted state blob. -/
inductive Json where
  | null
  | bool (b : Bool)
  | int (n : Int)
  | str (s : String)
  | arr (items : List Json)
  | obj (fields : List (String × Json))

/-- First-match lookup in the field list of a JSON object, as Python dict
lookup (dict keys are unique, so first match is the match). -/
def lookupField : List (String × Json) → String → Option Json
  | [], _ => none
  | (k, v) :: rest, key => if k = key then some v else lookupField rest key

/-- Python dict.get(key, default): the stored value when the key is present
(even when that value is null), the default otherwise. -/
def lookupFieldD (fields : List (String × Json)) (key : String) (dflt : Json) : Json :=
  match lookupField fields key with
  | some v => v
  | none => dflt

/-- Python dict.get(key) on an object value; none for non-objects, where Python
would raise AttributeError — callers model that branch explicitly. -/
def Json.get : Json → String → Option Json
  | .obj fields, key => lookupField fields key
  | _, _ => none

/-- Collapses a present-but-null value to none, matching the Python pattern
value = d.get(key) followed by a check that value is not None. -/
def pyNotNull : Option Json → Option Json
  | some .null => none
  | some v => some v
  | none => none

/-! Decimal rendering of integers, modelling Python str() as used by the
f-string that builds the identity name. -/

/-- Fuel-indexed little-endian base-10 digit extraction; the fuel bounds the
recursion depth and fuel equal to the number itself always suffices. -/
def natDigitsAux : Nat → Nat → List Nat
  | 0, _ => []
  | fuel + 1, n => if n = 0 then [] else n % 10 :: natDigitsAux fuel (n / 10)

/-- Little-endian base-10 digits of a natural number; empty for zero. -/
def natDigits (n : Nat) : List Nat := natDigitsAux n n

/-- Character for a single decimal digit. -/
def digitChar : Nat → Char
  | 0 => '0'
  | 1 => '1'
  | 2 => '2'
  | 3 => '3'
  | 4 => '4'
  | 5 => '5'
  | 6 => '6'
  | 7 => '7'
  | 8 => '8'
  | 9 => '9'
  | _ => '*'

/-- Decimal rendering of a natural number, as Python str(). -/
def natText (n : Nat) : String :=
  if n = 0 then "0" else String.mk (((natDigits n).map digitChar).reverse)

/-- Decimal rendering of an integer, as Python str(). -/
def intText : Int → String
  | .ofNat n => natText n
  | .negSucc n => "-" ++ natText (n + 1)

/-- Base-10 value of a little-endian digit list; the inverse of natDigits. -/
def fromDigits : List Nat → Nat
  | [] => 0
  | d :: ds => d + 10 * fromDigits ds

/-- Name string fed to uuid5, as built by the f-string in check_closures:
date, status, time, start, end and type joined by pipes. -/
def nameString (d s t : String) (a b : Int) (ty : String) : String :=
  d ++ "|" ++ s ++ "|" ++ t ++ "|" ++ intText a ++ "|" ++ intText b ++ "|" ++ ty

mutual

/-- Rendering of a JSON value inside a Python f-string (str()); containers are
rendered structurally (the element quoting of Python repr is not reproduced —
only the scalar renderings and the determinism of the rendering matter for the
properties below). -/
def jsonToText : Json → String
  | .null => "None"
  | .bool b => if b then "True" else "False"
  | .int n => intText n
  | .str s => s
  | .arr items => "[" ++ jsonListText items ++ "]"
  | .obj fields => "\x7b" ++ jsonObjText fields ++ "\x7d"

/-- Comma-joined rendering of a list of JSON values. -/
def jsonListText : List Json → String
  | [] => ""
  | [x] => jsonToText x
  | x :: y :: rest => jsonToText x ++ ", " ++ jsonListText (y :: rest)

/-- Comma-joined rendering of the fields of a JSON object. -/
def jsonObjText : List (String × Json) → String
  | [] => ""
  | [(k, v)] => k ++ ": " ++ jsonToText v
  | (k, v) :: f :: rest => k ++ ": " ++ jsonToText v ++ ", " ++ jsonObjText (f :: rest)

end

/-- Python int() applied to a JSON value, as used on the start and end
timestamps: ints pass through, booleans become 0 or 1, strings parse as
optionally signed decimal (ValueError otherwise; whitespace and underscore
forms are not modelled), every other value raises TypeError; the caller skips
the record on either failure, so both failure modes map to none. -/
def pyToInt : Json → Option Int
  | .int n => some n
  | .bool b => some (if b then 1 else 0)
  | .str s => s.toInt?
  | _ => none

/-- Canonical components of the identity name, following the per-item
validation in check_closures: the item must be a dict whose timestamps entry is
a non-empty dict (a missing, falsy or non-dict value skips the item), start and
end must be present, non-null and int()-convertible; status, type, date and
time fall back to the string "?" when the key is absent. -/
def nameFields (cl : Json) : Option (String × String × String × Int × Int × String) :=
  match cl with
  | .obj fields =>
    match lookupField fields "timestamps" with
    | some (.obj tsFields) =>
      if tsFields.isEmpty then none
      else
        match pyNotNull (lookupField tsFields "start"),
            pyNotNull (lookupField tsFields "end") with
        | some sv, some ev =>
          match pyToInt sv, pyToInt ev with
          | some si, some ei =>
            some (jsonToText (lookupFieldD fields "date" (.str "?")),
              jsonToText (lookupFieldD fields "status" (.str "?")),
              jsonToText (lookupFieldD fields "time" (.str "?")),
              si, ei,
              jsonToText (lookupFieldD fields "type" (.str "?")))
          | _, _ => none
        | _, _ => none
    | _ => none
  | _ => none

/-- EventIdentity derivation from check_closures: uuid5(CLOSURE_NAMESPACE,
name) over the name string date|status|time|start|end|type.  uuid5 with the
fixed namespace is a deterministic, collision-resistant function of the name
string, so the embedding uses the name string itself as the identity value. -/
def deriveIdentity (cl : Json) : Option String :=
  match nameFields cl with
  | some (d, s, t, a, b, ty) => some (nameString d s t a b ty)
  | none => none

/-- Timestamp-malformedness: the exact condition under which the per-item loop
of check_closures skips a record — the item is not a dict, or its timestamps
entry is missing, falsy or not a dict, or start or end is missing or null or
not int()-convertible. -/
def tsMalformed (cl : Json) : Bool :=
  match cl with
  | .obj fields =>
    match lookupField fields "timestamps" with
    | some (.obj tsFields) =>
      if tsFields.isEmpty then true
      else
        match pyNotNull (lookupField tsFields "start"),
            pyNotNull (lookupField tsFields "end") with
        | some sv, some ev =>
          match pyToInt sv, pyToInt ev with
          | some _, some _ => false
          | _, _ => true
        | _, _ => true
    | _ => true
  | _ => true

/-! The reconciliation pass of check_closures: derive an identity for every
fetched record, skipping malformed ones, collect all derived identities, and
queue for notification (in list order) every record whose identity is not in
the seen set. -/

/-- One pass of the per-item loop of check_closures over the fetched list:
returns the new_closures_to_notify list (in fetch order) and the
latest_generated_ids set. -/
def reconcileAux (seen : Finset String) : List Json → List (String × Json) × Finset String
  | [] => ([], ∅)
  | cl :: rest =>
    match deriveIdentity cl with
    | none => reconcileAux seen rest
    | some uid =>
      let r := reconcileAux seen rest
      ((if uid ∈ seen then r.1 else (uid, cl) :: r.1), insert uid r.2)

/-! Per-subscriber delivery.  The outcome oracle stands for the host platform:
channel resolution (bot.get_channel), the permission check, and the send call
with its per-channel except clauses. -/

/-- Outcome of one delivery attempt to one channel, covering each branch of
the per-channel block of check_closures. -/
inductive SendOutcome where
  | success
  | unresolvable
  | noPerms
  | forbidden
  | notFound
  | httpError
  | otherError
deriving DecidableEq

/-- Channels with these outcomes stay in the monitoring set; unresolvable,
forbidden and not-found channels are dropped (not appended to
channels_to_keep). -/
def keepsChannel : SendOutcome → Bool
  | .success => true
  | .noPerms => true
  | .httpError => true
  | .otherError => true
  | .unresolvable => false
  | .forbidden => false
  | .notFound => false

/-- The per-channel loop of check_closures for one event: every channel is
attempted independently; returns send_success_count and channels_to_keep in
iteration order. -/
def dispatch (send1 : Int → SendOutcome) : List Int → Nat × List Int
  | [] => (0, [])
  | c :: rest =>
    let r := dispatch send1 rest
    match send1 c with
    | .success => (r.1 + 1, c :: r.2)
    | .unresolvable => (r.1, r.2)
    | .noPerms => (r.1, c :: r.2)
    | .forbidden => (r.1, r.2)
    | .notFound => (r.1, r.2)
    | .httpError => (r.1, c :: r.2)
    | .otherError => (r.1, c :: r.2)

/-- The notification loop of check_closures: events are processed in order;
for each event, either the embed-preparation step raises (the per-event
except swallows it and nothing changes for that event) or the event is
dispatched to the current channel list; an event identity is recorded as
processed exactly when its send_success_count is positive, and the channel
list is narrowed to channels_to_keep before the next event. -/
def notifyLoop (prep : Nat → Bool) (send : Nat → Int → SendOutcome) :
    Nat → List (String × Json) → List Int → Finset String × List Int
  | _, [], chans => (∅, chans)
  | i, (uid, _) :: rest, chans =>
    if prep i then
      notifyLoop prep send (i + 1) rest chans
    else
      let d := dispatch (send i) chans
      let r := notifyLoop prep send (i + 1) rest d.2
      ((if 0 < d.1 then insert uid r.1 else r.1), r.2)

/-! The cached fetch helper fetch_closures_from_api. -/

/-- Result of the HTTP request plus JSON decoding inside
fetch_closures_from_api, before the except clauses are applied. -/
inductive FetchOutcome where
  | success (payload : Json)
  | timeout
  | transportError
  | decodeError
  | unexpectedError

/-- Cache kept by the Events cog: the last successfully fetched list and the
time of the last successful fetch. -/
structure ApiCache where
  cached : List Json
  lastFetch : Option Nat

/-- fetch_closures_from_api as a function of the request outcome: a JSON-list
payload is returned and cached together with the fetch time; any other payload
yields the empty list with the cache untouched; a timeout, transport error,
decode error or unexpected error yields the cached list when it is non-empty
and the empty list otherwise, with the cache untouched. -/
def fetchClosuresFromApi (o : FetchOutcome) (now : Nat) (c : ApiCache) :
    List Json × ApiCache :=
  match o with
  | .success (.arr items) => (items, { cached := items, lastFetch := some now })
  | .success _ => ([], c)
  | _ => (if c.cached.isEmpty then [] else c.cached, c)

/-- A fetch counts as successful exactly when the payload is a JSON list; only
then is the cache refreshed. -/
def fetchSucceeded : FetchOutcome → Bool
  | .success (.arr _) => true
  | _ => false

/-- Result of the underlying file write performed by _blocking_save_state. -/
inductive WriteOutcome where
  | written
  | ioFailure
  | unexpectedFailure

/-! One poll cycle of the background task check_closures. -/

/-- In-memory state of the Events cog that the poll cycle reads and writes. -/
structure BotState where
  monitoringChannels : List Int
  seenClosureIds : Finset String
  managedClosures : List Json
  apiCache : ApiCache

/-- Oracles for the external effects of one poll cycle: the fetch outcome and
time, the per-event embed-preparation failures, and the per-event/per-channel
send outcomes. -/
structure PollInputs where
  fetchOutcome : FetchOutcome
  now : Nat
  prepFails : Nat → Bool
  send : Nat → Int → SendOutcome
  writeOutcome : WriteOutcome

/-- One invocation of check_closures: skip when no channel is monitored;
fetch (or fall back to cache); return early when the resulting list is empty;
reconcile against the seen set; notify each new event, narrowing the channel
list as permanently invalid channels are dropped; fold the successfully
delivered identities into the seen set; finally prune the seen set against the
latest derived identities when at least one identity was derived. -/
def pollCycle (st : BotState) (inp : PollInputs) : BotState :=
  if st.monitoringChannels.isEmpty then st
  else
    let fr := fetchClosuresFromApi inp.fetchOutcome inp.now st.apiCache
    if fr.1.isEmpty then { st with apiCache := fr.2 }
    else
      let recon := reconcileAux st.seenClosureIds fr.1
      let nl := notifyLoop inp.prepFails inp.send 0 recon.1 st.monitoringChannels
      let seen1 := st.seenClosureIds ∪ nl.1
      let seen2 := if recon.2 = ∅ then seen1 else seen1 ∩ recon.2
      { st with monitoringChannels := nl.2, seenClosureIds := seen2, apiCache := fr.2 }

/-- Record list used by the cycle: the fetch result (possibly served from
cache). -/
def cycleLatest (st : BotState) (inp : PollInputs) : List Json :=
  (fetchClosuresFromApi inp.fetchOutcome inp.now st.apiCache).1

/-- Records the cycle classifies as new, with their identities, in fetch
order. -/
def cycleNewRecords (st : BotState) (inp : PollInputs) : List (String × Json) :=
  (reconcileAux st.seenClosureIds (cycleLatest st inp)).1

/-- All identities derived from the cycle's record list. -/
def cycleLatestIds (st : BotState) (inp : PollInputs) : Finset String :=
  (reconcileAux st.seenClosureIds (cycleLatest st inp)).2

/-- Identities of events delivered to at least one subscriber channel during
the cycle. -/
def cycleDelivered (st : BotState) (inp : PollInputs) : Finset String :=
  (notifyLoop inp.prepFails inp.send 0 (cycleNewRecords st inp) st.monitoringChannels).1

/-! Explicit Python exception flow.  Each operation that can raise is modelled
in an Except monad, with try/except blocks placed exactly where the source
places them; the theorems below show that no exception escapes the poll cycle
or the state helpers. -/

/-- Python exception kinds raised inside the modelled region. -/
inductive PyExc where
  | timeoutExc
  | clientExc
  | jsonDecodeExc
  | forbiddenExc
  | notFoundExc
  | httpExc
  | ioExc
  | valueExc
  | typeExc
  | attrExc
  | otherExc
deriving DecidableEq

/-- Python try/except: run the body; on a raised exception run the handler. -/
def pyTry {α : Type} (body : Except PyExc α) (handler : PyExc → Except PyExc α) :
    Except PyExc α :=
  match body with
  | .ok a => .ok a
  | .error e => handler e

/-- Raw body of fetch_closures_from_api before its except clauses; the outcome
oracle stands for the aiohttp request and the JSON decode. -/
def fetchAttempt (o : FetchOutcome) (now : Nat) (c : ApiCache) :
    Except PyExc (List Json × ApiCache) :=
  match o with
  | .success (.arr items) => .ok (items, { cached := items, lastFetch := some now })
  | .success _ => .ok ([], c)
  | .timeout => .error .timeoutExc
  | .transportError => .error .clientExc
  | .decodeError => .error .jsonDecodeExc
  | .unexpectedError => .error .otherExc

/-- Cache fallback performed by every except clause of
fetch_closures_from_api. -/
def cacheFallback (c : ApiCache) : List Json :=
  if c.cached.isEmpty then [] else c.cached

/-- fetch_closures_from_api with its four except clauses (timeout, client
error, JSON decode error, catch-all): every raised error resolves to the cache
fallback, so the helper never propagates an exception to its caller. -/
def fetchClosuresM (o : FetchOutcome) (now : Nat) (c : ApiCache) :
    Except PyExc (List Json × ApiCache) :=
  pyTry (fetchAttempt o now c)
    (fun e =>
      match e with
      | .timeoutExc => .ok (cacheFallback c, c)
      | .clientExc => .ok (cacheFallback c, c)
      | .jsonDecodeExc => .ok (cacheFallback c, c)
      | _ => .ok (cacheFallback c, c))

/-- Synchronous helper _blocking_save_state: an IOError during the write is
logged and re-raised; an unexpected failure propagates directly. -/
def blockingSaveState : WriteOutcome → Except PyExc Unit
  | .written => .ok ()
  | .ioFailure => .error .ioExc
  | .unexpectedFailure => .error .otherExc

/-- save_state: the blocking write runs under a catch-all except that only
logs, so no persistence failure ever reaches the caller. -/
def saveStateM (w : WriteOutcome) : Except PyExc Unit :=
  pyTry (blockingSaveState w) (fun _ => .ok ())

/-- Send call for one resolved channel with permissions, as raised exceptions;
the unresolvable and no-permission cases never reach the send call and are
handled before it in dispatchM. -/
def sendAttempt : SendOutcome → Except PyExc Unit
  | .success => .ok ()
  | .forbidden => .error .forbiddenExc
  | .notFound => .error .notFoundExc
  | .httpError => .error .httpExc
  | .otherError => .error .otherExc
  | .unresolvable => .ok ()
  | .noPerms => .ok ()

/-- The per-channel loop with its except clauses made explicit: an
unresolvable channel is dropped without a send, a channel without permissions
is kept without a send, and each send failure is caught per channel —
Forbidden and NotFound drop the channel, HTTP and unexpected errors keep
it. -/
def dispatchM (send1 : Int → SendOutcome) : List Int → Except PyExc (Nat × List Int)
  | [] => .ok (0, [])
  | c :: rest =>
    match dispatchM send1 rest with
    | .error e => .error e
    | .ok r =>
      match send1 c with
      | .unresolvable => .ok (r.1, r.2)
      | .noPerms => .ok (r.1, c :: r.2)
      | oc =>
        pyTry
          (match sendAttempt oc with
           | .ok _ => .ok (r.1 + 1, c :: r.2)
           | .error e => .error e)
          (fun e =>
            match e with
            | .forbiddenExc => .ok (r.1, r.2)
            | .notFoundExc => .ok (r.1, r.2)
            | .httpExc => .ok (r.1, c :: r.2)
            | _ => .ok (r.1, c :: r.2))

/-- Embed construction and related per-event setup; the oracle says whether it
raises. -/
def eventPrep (fails : Bool) : Except PyExc Unit :=
  if fails then .error .otherExc else .ok ()

/-- The notification loop with its exception structure: each event body is
wrapped in a catch-all except (a failure leaves the channel list unchanged and
records no success for that event), and the conditional state save after a
channel removal is itself wrapped in a try/except. -/
def notifyLoopM (prep : Nat → Bool) (send : Nat → Int → SendOutcome) (w : WriteOutcome) :
    Nat → List (String × Json) → List Int → Except PyExc (Finset String × List Int)
  | _, [], chans => .ok (∅, chans)
  | i, (uid, _) :: rest, chans =>
    match pyTry
        (match eventPrep (prep i) with
         | .error e => .error e
         | .ok _ =>
           match dispatchM (send i) chans with
           | .error e => .error e
           | .ok d =>
             match
               (if d.2 = chans then Except.ok ()
                else pyTry (saveStateM w) (fun _ => .ok ())) with
             | .error e => .error e
             | .ok _ => .ok d)
        (fun _ => .ok (0, chans)) with
    | .error e => .error e
    | .ok d =>
      match notifyLoopM prep send w (i + 1) rest d.2 with
      | .error e => .error e
      | .ok r => .ok ((if 0 < d.1 then insert uid r.1 else r.1), r.2)

/-- The per-item loop of check_closures with its catch-all except: an
unexpected failure while processing one item skips that item only.  Within the
JSON model the item body itself is total, so the handler arm exists as
structure. -/
def reconcileM (seen : Finset String) :
    List Json → Except PyExc (List (String × Json) × Finset String)
  | [] => .ok ([], ∅)
  | cl :: rest =>
    match reconcileM seen rest with
    | .error e => .error e
    | .ok r =>
      pyTry
        (match deriveIdentity cl with
         | none => .ok r
         | some uid =>
           .ok ((if uid ∈ seen then r.1 else (uid, cl) :: r.1), insert uid r.2))
        (fun _ => .ok r)

/-- check_closures with Python exception flow explicit: the fetch is awaited
outside any try (so it must not raise on its own), the reconcile and
notification loops carry their internal handlers, and each state save runs
inside its own try/except. -/
def pollCycleM (st : BotState) (inp : PollInputs) : Except PyExc BotState :=
  if st.monitoringChannels.isEmpty then .ok st
  else
    match fetchClosuresM inp.fetchOutcome inp.now st.apiCache with
    | .error e => .error e
    | .ok fr =>
      if fr.1.isEmpty then .ok { st with apiCache := fr.2 }
      else
        match reconcileM st.seenClosureIds fr.1 with
        | .error e => .error e
        | .ok recon =>
          match notifyLoopM inp.prepFails inp.send inp.writeOutcome 0 recon.1
              st.monitoringChannels with
          | .error e => .error e
          | .ok nl =>
            let seen1 := st.seenClosureIds ∪ nl.1
            match
              (if nl.1 = ∅ then Except.ok ()
               else pyTry (saveStateM inp.writeOutcome) (fun _ => .ok ())) with
            | .error e => .error e
            | .ok _ =>
              let seen2 := if recon.2 = ∅ then seen1 else seen1 ∩ recon.2
              match
                (if seen2 = seen1 then Except.ok ()
                 else pyTry (saveStateM inp.writeOutcome) (fun _ => .ok ())) with
              | .error e => .error e
              | .ok _ =>
                .ok
                  { st with
                    monitoringChannels := nl.2
                    seenClosureIds := seen2
                    apiCache := fr.2 }

/-! Persistent-state loading (load_state / _blocking_load_state). -/

/-- Persisted aggregate loaded by load_state. -/
structure PersistedState where
  monitoringChannels : List Int
  seenClosureIds : Finset String
  managedClosures : List Json

/-- State installed when the file is missing or empty, or when loading
fails. -/
def emptyPersistedState : PersistedState :=
  { monitoringChannels := [], seenClosureIds := ∅, managedClosures := [] }

/-- Result of reading the state file. -/
inductive FileOutcome where
  | missing
  | emptyFile
  | readError
  | badJson
  | content (j : Json)

/-- Synchronous helper _blocking_load_state: a missing or empty file yields
None; an IOError while reading is logged and re-raised; a JSON decode failure
raises out of json.loads and is not caught here. -/
def blockingLoadState : FileOutcome → Except PyExc (Option Json)
  | .missing => .ok none
  | .emptyFile => .ok none
  | .readError => .error .ioExc
  | .badJson => .error .jsonDecodeExc
  | .content j => .ok (some j)

/-- Python int() on one entry of monitoring_channels, with its exceptions. -/
def pyToIntE : Json → Except PyExc Int
  | .int n => .ok n
  | .bool b => .ok (if b then 1 else 0)
  | .str s =>
    match s.toInt? with
    | some n => .ok n
    | none => .error .valueExc
  | _ => .error .typeExc

/-- Conversion set(int(cid) for cid in raw): iterating a non-list raises
TypeError (a string value, which Python would iterate characterwise, is not
modelled); the resulting set is kept as the deduplicated conversion list. -/
def loadMonitoringChannels : Json → Except PyExc (List Int)
  | .arr items =>
    match items.mapM pyToIntE with
    | .ok cs => .ok cs.dedup
    | .error e => .error e
  | _ => .error .typeExc

/-- Conversion set(str(id_val) for id_val in raw): str() is total; iterating a
non-list raises TypeError. -/
def loadSeenIds : Json → Except PyExc (Finset String)
  | .arr items => .ok (items.map jsonToText).toFinset
  | _ => .error .typeExc

/-- managed_closures handling in load_state: a non-list value is reset to the
empty list without raising. -/
def loadManaged : Json → List Json
  | .arr items => items
  | _ => []

/-- Field extraction of load_state on decoded JSON: state_data.get on a
non-dict raises AttributeError; each absent key defaults to the empty list. -/
def processLoadedState (j : Json) : Except PyExc PersistedState :=
  match j with
  | .obj fields =>
    match loadMonitoringChannels (lookupFieldD fields "monitoring_channels" (.arr [])) with
    | .error e => .error e
    | .ok chans =>
      match loadSeenIds (lookupFieldD fields "seen_closure_ids" (.arr [])) with
      | .error e => .error e
      | .ok seen =>
        .ok
          { monitoringChannels := chans
            seenClosureIds := seen
            managedClosures :=
              loadManaged (lookupFieldD fields "managed_closures" (.arr [])) }
  | _ => .error .attrExc

/-- load_state: a None from the blocking helper (missing or empty file) yields
the empty state; the except clauses — (json.JSONDecodeError, ValueError,
TypeError) and the final catch-all — both reset to the empty state, so one
catch-all models them; only a successfully processed dict populates the three
collections. -/
def loadStateM (fo : FileOutcome) : Except PyExc PersistedState :=
  pyTry
    (match blockingLoadState fo with
     | .error e => .error e
     | .ok none => .ok emptyPersistedState
     | .ok (some j) => processLoadedState j)
    (fun _ => .ok emptyPersistedState)

/-- Message branch taken by add_managed_road_closure after its save attempt. -/
inductive AddReport where
  | savedOk
  | saveErrorShown
deriving DecidableEq

/-- Tail of add_managed_road_closure after the interactive field collection:
the new closure is appended to the in-memory list, then save_state is awaited
inside a try/except whose error branch would report a failed save. -/
def addManagedRoadClosure (st : BotState) (closureData : Json) (w : WriteOutcome) :
    BotState × AddReport :=
  let st2 := { st with managedClosures := st.managedClosures ++ [closureData] }
  match saveStateM w with
  | .ok _ => (st2, .savedOk)
  | .error _ => (st2, .saveErrorShown)

/-! Concrete instances used by counterexamples and witnesses. -/

/-- Record of the shape returned by the API, for concrete instances. -/
def mkRecord (status ty date time : String) (startTs endTs : Int) : Json :=
  .obj [("status", .str status), ("type", .str ty), ("date", .str date),
    ("time", .str time),
    ("timestamps", .obj [("start", .int startTs), ("end", .int endTs)])]

/-- State with one monitored channel, one previously seen identity and an
empty cache. -/
def c2State : BotState :=
  { monitoringChannels := [1]
    seenClosureIds := {"x"}
    managedClosures := []
    apiCache := { cached := [], lastFetch := none } }

/-- Inputs whose fetch succeeds with the empty JSON list. -/
def c2Inputs : PollInputs :=
  { fetchOutcome := .success (.arr [])
    now := 0
    prepFails := fun _ => false
    send := fun _ _ => .success
    writeOutcome := .written }

/-- Two records agreeing on status, type, start and end but not on date. -/
def c3rec1 : Json := mkRecord "Closure Scheduled" "Primary Date" "May 1" "10 to 4" 1 2

/-- Companion record to c3rec1 with a different date string. -/
def c3rec2 : Json := mkRecord "Closure Scheduled" "Primary Date" "May 2" "10 to 4" 1 2

/-- Record with valid timestamps but no status, type, date or time keys. -/
def c7rec : Json := .obj [("timestamps", .obj [("start", .int 1), ("end", .int 2)])]

/-- Record without a timestamps key, skipped by the reconcile pass. -/
def c7bad : Json := .obj [("status", .str "S")]

/-- State with one monitored channel and nothing seen. -/
def c1State : BotState :=
  { monitoringChannels := [1]
    seenClosureIds := ∅
    managedClosures := []
    apiCache := { cached := [], lastFetch := none } }

/-- Record fetched in the C1 witness cycle. -/
def c1rec : Json := mkRecord "Possible Closure" "Primary Date" "May 3" "9 to 5" 1 2

/-- Identity the cycle derives for c1rec. -/
def c1uid : String := "May 3|Possible Closure|9 to 5|1|2|Primary Date"

/-- Inputs fetching exactly c1rec, with every send attempt rejected as
Forbidden, so the event is delivered to zero subscribers. -/
def c1Inputs : PollInputs :=
  { fetchOutcome := .success (.arr [c1rec])
    now := 0
    prepFails := fun _ => false
    send := fun _ _ => .forbidden
    writeOutcome := .written }

/-- State with one monitored channel and one stale seen identity. -/
def c2wState : BotState :=
  { monitoringChannels := [1]
    seenClosureIds := {"gone"}
    managedClosures := []
    apiCache := { cached := [], lastFetch := none } }

/-- Inputs fetching exactly c1rec with successful delivery. -/
def c2wInputs : PollInputs :=
  { fetchOutcome := .success (.arr [c1rec])
    now := 0
    prepFails := fun _ => false
    send := fun _ _ => .success
    writeOutcome := .written }

/-- Send oracle for the dispatch witness: channel 1 succeeds, every other
channel is rejected as Forbidden. -/
def c5send : Int → SendOutcome := fun c => if c = 1 then .success else .forbidden

/-- Non-empty cache for the fetch counterexample. -/
def c6Cache : ApiCache := { cached := [Json.str "a", Json.str "b"], lastFetch := some 5 }

theorem fromDigits_natDigitsAux : ∀ (fuel n : Nat), n ≤ fuel →
    fromDigits (natDigitsAux fuel n) = n := by
  intro fuel
  induction fuel with
  | zero => intro n h; interval_cases n; simp [natDigitsAux, fromDigits]
  | succ fuel ih =>
    intro n h
    by_cases hn : n = 0
    · simp [natDigitsAux, hn, fromDigits]
    · have hdiv : n / 10 ≤ fuel := by
        have : n / 10 < n := Nat.div_lt_self (Nat.pos_of_ne_zero hn) (by omega)
        omega
      simp only [natDigitsAux, hn, if_false, fromDigits, ih _ hdiv]
      omega

theorem fromDigits_natDigits (n : Nat) : fromDigits (natDigits n) = n :=
  fromDigits_natDigitsAux n n (Nat.le_refl n)

theorem natDigits_injective {m n : Nat} (h : natDigits m = natDigits n) : m = n := by
  have := fromDigits_natDigits m
  rw [h, fromDigits_natDigits] at this
  omega

theorem natDigitsAux_lt_ten : ∀ (fuel n : Nat), ∀ d ∈ natDigitsAux fuel n, d < 10 := by
  intro fuel
  induction fuel with
  | zero => intro n d hd; simp [natDigitsAux] at hd
  | succ fuel ih =>
    intro n d hd
    by_cases hn : n = 0
    · simp [natDigitsAux, hn] at hd
    · simp only [natDigitsAux, hn, if_false, List.mem_cons] at hd
      rcases hd with hd | hd
      · subst hd; omega
      · exact ih _ d hd

theorem natDigits_lt_ten (n : Nat) : ∀ d ∈ natDigits n, d < 10 :=
  natDigitsAux_lt_ten n n

theorem digitChar_isDigit {d : Nat} (h : d < 10) : (digitChar d).isDigit = true := by
  interval_cases d <;> decide

theorem digitChar_inj {d₁ d₂ : Nat} (h₁ : d₁ < 10) (h₂ : d₂ < 10)
    (h : digitChar d₁ = digitChar d₂) : d₁ = d₂ := by
  interval_cases d₁ <;> interval_cases d₂ <;> simp_all [digitChar]

theorem map_digitChar_inj : ∀ {xs ys : List Nat},
    (∀ d ∈ xs, d < 10) → (∀ d ∈ ys, d < 10) →
    xs.map digitChar = ys.map digitChar → xs = ys := by
  intro xs
  induction xs with
  | nil =>
    intro ys _ _ h
    cases ys with
    | nil => rfl
    | cons y ys => simp at h
  | cons x xs ih =>
    intro ys hxs hys h
    cases ys with
    | nil => simp at h
    | cons y ys =>
      simp only [List.map_cons, List.cons.injEq] at h
      have hx : x < 10 := hxs x (List.mem_cons_self x xs)
      have hy : y < 10 := hys y (List.mem_cons_self y ys)
      have hxy : x = y := digitChar_inj hx hy h.1
      have : xs = ys := ih (fun d hd => hxs d (List.mem_cons_of_mem x hd))
        (fun d hd => hys d (List.mem_cons_of_mem y hd)) h.2
      rw [hxy, this]

theorem natText_isDigit (n : Nat) : ∀ c ∈ (natText n).data, c.isDigit = true := by
  intro c hc
  unfold natText at hc
  by_cases hn : n = 0
  · simp [hn] at hc
    subst hc
    decide
  · simp only [hn, if_false] at hc
    simp only [String.mk, List.mem_reverse, List.mem_map] at hc
    obtain ⟨d, hd, hdc⟩ := hc
    rw [← hdc]
    exact digitChar_isDigit (natDigits_lt_ten n d hd)

theorem natText_injective {m n : Nat} (h : natText m = natText n) : m = n := by
  unfold natText at h
  by_cases hm : m = 0 <;> by_cases hn : n = 0
  · omega
  · exfalso
    simp only [hm, if_true, hn, if_false] at h
    have hdata : ('0' :: []) = ((natDigits n).map digitChar).reverse := by
      have := congrArg String.data h
      simpa [String.mk] using this
    have hne : natDigits n ≠ [] := by
      intro hnil
      rw [hnil] at hdata
      simp at hdata
    have hlen : ((natDigits n).map digitChar).reverse.length = 1 := by
      rw [← hdata]; rfl
    simp only [List.length_reverse, List.length_map] at hlen
    obtain ⟨d, hd⟩ : ∃ d, natDigits n = [d] := by
      cases hds : natDigits n with
      | nil => exact absurd hds hne
      | cons a l =>
        rw [hds] at hlen
        simp at hlen
        exact ⟨a, by rw [hlen]⟩
    rw [hd] at hdata
    simp only [List.map_cons, List.map_nil, List.reverse_cons, List.reverse_nil,
      List.nil_append, List.cons.injEq] at hdata
    have hd10 : d < 10 := by
      have := natDigits_lt_ten n
      rw [hd] at this
      exact this d (List.mem_singleton.mpr rfl)
    have hchar : digitChar 0 = digitChar d := hdata.1
    have hd0 : d = 0 := (digitChar_inj (by omega) hd10 hchar).symm
    have := fromDigits_natDigits n
    rw [hd, hd0] at this
    simp [fromDigits] at this
    omega
  · exfalso
    simp only [hm, if_false, hn, if_true] at h
    have hdata : ((natDigits m).map digitChar).reverse = ('0' :: []) := by
      have := congrArg String.data h
      simpa [String.mk] using this
    have hne : natDigits m ≠ [] := by
      intro hnil
      rw [hnil] at hdata
      simp at hdata
    have hlen : ((natDigits m).map digitChar).reverse.length = 1 := by
      rw [hdata]; rfl
    simp only [List.length_reverse, List.length_map] at hlen
    obtain ⟨d, hd⟩ : ∃ d, natDigits m = [d] := by
      cases hds : natDigits m with
      | nil => exact absurd hds hne
      | cons a l =>
        rw [hds] at hlen
        simp at hlen
        exact ⟨a, by rw [hlen]⟩
    rw [hd] at hdata
    simp only [List.map_cons, List.map_nil, List.reverse_cons, List.reverse_nil,
      List.nil_append, List.cons.injEq] at hdata
    have hd10 : d < 10 := by
      have := natDigits_lt_ten m
      rw [hd] at this
      exact this d (List.mem_singleton.mpr rfl)
    have hchar : digitChar d = digitChar 0 := hdata.1
    have hd0 : d = 0 := digitChar_inj hd10 (by omega) hchar
    have := fromDigits_natDigits m
    rw [hd, hd0] at this
    simp [fromDigits] at this
    omega
  · simp only [hm, hn, if_false] at h
    have hdata := congrArg String.data h
    simp only [String.mk] at hdata
    have hrev := List.reverse_injective hdata
    exact natDigits_injective
      (map_digitChar_inj (natDigits_lt_ten m) (natDigits_lt_ten n) hrev)

theorem natText_ne_pipe (n : Nat) : '|' ∉ (natText n).data := by
  intro h
  exact absurd (natText_isDigit n '|' h) (by decide)

theorem data_append (s t : String) : (s ++ t).data = s.data ++ t.data := by
  cases s; cases t; rfl

theorem string_data_inj {s t : String} (h : s.data = t.data) : s = t := by
  cases s; cases t; exact congrArg String.mk h

theorem intText_ne_pipe (i : Int) : '|' ∉ (intText i).data := by
  cases i with
  | ofNat n => exact natText_ne_pipe n
  | negSucc n =>
    intro h
    simp only [intText, data_append, show ("-" : String).data = ['-'] from rfl,
      List.singleton_append, List.mem_cons] at h
    rcases h with h | h
    · exact absurd h (by decide)
    · exact natText_ne_pipe (n + 1) h

theorem intText_injective {i j : Int} (h : intText i = intText j) : i = j := by
  cases i with
  | ofNat m =>
    cases j with
    | ofNat n => exact congrArg Int.ofNat (natText_injective h)
    | negSucc n =>
      exfalso
      simp only [intText] at h
      have hmem : '-' ∈ (natText m).data := by
        rw [h, data_append]
        exact List.mem_append_left _ (by decide)
      exact absurd (natText_isDigit m '-' hmem) (by decide)
  | negSucc m =>
    cases j with
    | ofNat n =>
      exfalso
      simp only [intText] at h
      have hmem : '-' ∈ (natText n).data := by
        rw [← h, data_append]
        exact List.mem_append_left _ (by decide)
      exact absurd (natText_isDigit n '-' hmem) (by decide)
    | negSucc n =>
      simp only [intText] at h
      have hdata := congrArg String.data h
      simp only [data_append, show ("-" : String).data = ['-'] from rfl,
        List.singleton_append, List.cons.injEq, true_and] at hdata
      have hmn := natText_injective (string_data_inj hdata)
      have : m = n := by omega
      rw [this]

theorem append_pipe_inj : ∀ {a₁ a₂ t₁ t₂ : List Char}, '|' ∉ a₁ → '|' ∉ a₂ →
    a₁ ++ '|' :: t₁ = a₂ ++ '|' :: t₂ → a₁ = a₂ ∧ t₁ = t₂ := by
  intro a₁
  induction a₁ with
  | nil =>
    intro a₂ t₁ t₂ h₁ h₂ h
    cases a₂ with
    | nil => simpa using h
    | cons c rest =>
      simp only [List.nil_append, List.cons_append, List.cons.injEq] at h
      exfalso
      apply h₂
      rw [← h.1]
      exact List.mem_cons_self _ _
  | cons c rest ih =>
    intro a₂ t₁ t₂ h₁ h₂ h
    cases a₂ with
    | nil =>
      simp only [List.cons_append, List.nil_append, List.cons.injEq] at h
      exfalso
      apply h₁
      rw [h.1]
      exact List.mem_cons_self _ _
    | cons c₂ rest₂ =>
      simp only [List.cons_append, List.cons.injEq] at h
      obtain ⟨hc, hrest⟩ := h
      have h₁' : '|' ∉ rest := fun hm => h₁ (List.mem_cons_of_mem _ hm)
      have h₂' : '|' ∉ rest₂ := fun hm => h₂ (List.mem_cons_of_mem _ hm)
      obtain ⟨ha, ht⟩ := ih h₁' h₂' hrest
      exact ⟨by rw [hc, ha], ht⟩

theorem nameString_inj {d₁ s₁ t₁ ty₁ d₂ s₂ t₂ ty₂ : String} {a₁ b₁ a₂ b₂ : Int}
    (hd₁ : '|' ∉ d₁.data) (hs₁ : '|' ∉ s₁.data) (ht₁ : '|' ∉ t₁.data) (hty₁ : '|' ∉ ty₁.data)
    (hd₂ : '|' ∉ d₂.data) (hs₂ : '|' ∉ s₂.data) (ht₂ : '|' ∉ t₂.data) (hty₂ : '|' ∉ ty₂.data)
    (h : nameString d₁ s₁ t₁ a₁ b₁ ty₁ = nameString d₂ s₂ t₂ a₂ b₂ ty₂) :
    d₁ = d₂ ∧ s₁ = s₂ ∧ t₁ = t₂ ∧ a₁ = a₂ ∧ b₁ = b₂ ∧ ty₁ = ty₂ := by
  have hdata := congrArg String.data h
  simp only [nameString, data_append, List.append_assoc,
    show ("|" : String).data = ['|'] from rfl, List.singleton_append] at hdata
  obtain ⟨hd, hdata⟩ := append_pipe_inj hd₁ hd₂ hdata
  obtain ⟨hs, hdata⟩ := append_pipe_inj hs₁ hs₂ hdata
  obtain ⟨ht, hdata⟩ := append_pipe_inj ht₁ ht₂ hdata
  obtain ⟨ha, hdata⟩ := append_pipe_inj (intText_ne_pipe a₁) (intText_ne_pipe a₂) hdata
  obtain ⟨hb, hdata⟩ := append_pipe_inj (intText_ne_pipe b₁) (intText_ne_pipe b₂) hdata
  exact ⟨string_data_inj hd, string_data_inj hs, string_data_inj ht,
    intText_injective (string_data_inj ha), intText_injective (string_data_inj hb),
    string_data_inj hdata⟩

theorem deriveIdentity_none_iff (cl : Json) :
    deriveIdentity cl = none ↔ tsMalformed cl = true := by
  cases cl with
  | null => simp [deriveIdentity, nameFields, tsMalformed]
  | bool b => simp [deriveIdentity, nameFields, tsMalformed]
  | int n => simp [deriveIdentity, nameFields, tsMalformed]
  | str s => simp [deriveIdentity, nameFields, tsMalformed]
  | arr items => simp [deriveIdentity, nameFields, tsMalformed]
  | obj fields =>
    simp only [deriveIdentity, nameFields, tsMalformed]
    cases hts : lookupField fields "timestamps" with
    | none => simp
    | some ts =>
      cases ts with
      | null => simp
      | bool b => simp
      | int n => simp
      | str s => simp
      | arr items => simp
      | obj tsFields =>
        by_cases he : tsFields.isEmpty
        · simp [he]
        · simp only [he, Bool.false_eq_true, if_false]
          cases hsv : pyNotNull (lookupField tsFields "start") with
          | none => simp
          | some sv =>
            cases hev : pyNotNull (lookupField tsFields "end") with
            | none => simp
            | some ev =>
              cases hsi : pyToInt sv with
              | none => simp [hsi]
              | some si =>
                cases hei : pyToInt ev with
                | none => simp [hsi, hei]
                | some ei => simp [hsi, hei]

theorem mem_reconcile_new {seen : Finset String} :
    ∀ {latest : List Json} {uid : String} {cl : Json},
    (uid, cl) ∈ (reconcileAux seen latest).1 ↔
      cl ∈ latest ∧ deriveIdentity cl = some uid ∧ uid ∉ seen := by
  intro latest
  induction latest with
  | nil => simp [reconcileAux]
  | cons hd rest ih =>
    intro uid cl
    simp only [reconcileAux]
    cases hder : deriveIdentity hd with
    | none =>
      rw [ih]
      constructor
      · rintro ⟨hmem, hd2, hns⟩
        exact ⟨List.mem_cons_of_mem _ hmem, hd2, hns⟩
      · rintro ⟨hmem, hd2, hns⟩
        rcases List.mem_cons.mp hmem with heq | hmem
        · subst heq
          rw [hder] at hd2
          exact absurd hd2 (by simp)
        · exact ⟨hmem, hd2, hns⟩
    | some u =>
      by_cases hseen : u ∈ seen
      · simp only [hseen, if_true]
        rw [ih]
        constructor
        · rintro ⟨hmem, hd2, hns⟩
          exact ⟨List.mem_cons_of_mem _ hmem, hd2, hns⟩
        · rintro ⟨hmem, hd2, hns⟩
          rcases List.mem_cons.mp hmem with heq | hmem
          · subst heq
            rw [hder] at hd2
            injection hd2 with hu
            subst hu
            exact absurd hseen hns
          · exact ⟨hmem, hd2, hns⟩
      · simp only [hseen, if_false, List.mem_cons]
        rw [ih]
        constructor
        · rintro (hpair | ⟨hmem, hd2, hns⟩)
          · injection hpair with h1 h2
            subst h1
            subst h2
            exact ⟨Or.inl rfl, hder, hseen⟩
          · exact ⟨Or.inr hmem, hd2, hns⟩
        · rintro ⟨hmem, hd2, hns⟩
          rcases hmem with heq | hmem
          · subst heq
            rw [hder] at hd2
            injection hd2 with hu
            subst hu
            exact Or.inl rfl
          · exact Or.inr ⟨hmem, hd2, hns⟩

theorem mem_reconcile_ids {seen : Finset String} :
    ∀ {latest : List Json} {uid : String},
    uid ∈ (reconcileAux seen latest).2 ↔ ∃ cl ∈ latest, deriveIdentity cl = some uid := by
  intro latest
  induction latest with
  | nil => simp [reconcileAux]
  | cons hd rest ih =>
    intro uid
    simp only [reconcileAux]
    cases hder : deriveIdentity hd with
    | none =>
      rw [ih]
      constructor
      · rintro ⟨cl, hmem, hd2⟩
        exact ⟨cl, List.mem_cons_of_mem _ hmem, hd2⟩
      · rintro ⟨cl, hmem, hd2⟩
        rcases List.mem_cons.mp hmem with heq | hmem
        · subst heq
          rw [hder] at hd2
          exact absurd hd2 (by simp)
        · exact ⟨cl, hmem, hd2⟩
    | some u =>
      by_cases hu : uid = u
      · subst hu
        simp only [Finset.mem_insert, true_or, if_pos rfl, if_true]
        constructor
        · intro _
          exact ⟨hd, List.mem_cons_self _ _, hder⟩
        · intro _
          by_cases huseen : uid ∈ seen <;> simp [Finset.mem_insert]
      · constructor
        · intro hmem
          rcases Finset.mem_insert.mp (by simpa using hmem) with heq | hmem2
          · exact absurd heq hu
          · obtain ⟨cl, hcl, hd2⟩ := ih.mp hmem2
            exact ⟨cl, List.mem_cons_of_mem _ hcl, hd2⟩
        · rintro ⟨cl, hmem, hd2⟩
          rcases List.mem_cons.mp hmem with heq | hmem
          · subst heq
            rw [hder] at hd2
            injection hd2 with h2
            exact absurd h2.symm hu
          · exact Finset.mem_insert_of_mem (ih.mpr ⟨cl, hmem, hd2⟩)

theorem reconcile_ids_nonempty {seen : Finset String} {latest : List Json}
    {uid : String} {cl : Json} (h : (uid, cl) ∈ (reconcileAux seen latest).1) :
    (reconcileAux seen latest).2 ≠ ∅ := by
  obtain ⟨hmem, hder, _⟩ := mem_reconcile_new.mp h
  intro hempty
  have : uid ∈ (reconcileAux seen latest).2 := mem_reconcile_ids.mpr ⟨cl, hmem, hder⟩
  rw [hempty] at this
  exact absurd this (Finset.not_mem_empty uid)

theorem dispatch_count (send1 : Int → SendOutcome) (cs : List Int) :
    (dispatch send1 cs).1 = cs.countP (fun c => decide (send1 c = .success)) := by
  induction cs with
  | nil => simp [dispatch]
  | cons c rest ih =>
    simp only [dispatch]
    cases h : send1 c <;>
      simp [List.countP_cons, h, ih]

theorem dispatch_keep (send1 : Int → SendOutcome) (cs : List Int) :
    (dispatch send1 cs).2 = cs.filter (fun c => keepsChannel (send1 c)) := by
  induction cs with
  | nil => simp [dispatch]
  | cons c rest ih =>
    simp only [dispatch]
    cases h : send1 c <;>
      simp [List.filter_cons, h, ih, keepsChannel]

theorem pollCycle_eq (st : BotState) (inp : PollInputs)
    (hch : st.monitoringChannels.isEmpty = false)
    (hlatest : (cycleLatest st inp).isEmpty = false) :
    pollCycle st inp =
      { st with
        monitoringChannels :=
          (notifyLoop inp.prepFails inp.send 0 (cycleNewRecords st inp)
            st.monitoringChannels).2,
        seenClosureIds :=
          if cycleLatestIds st inp = ∅ then st.seenClosureIds ∪ cycleDelivered st inp
          else (st.seenClosureIds ∪ cycleDelivered st inp) ∩ cycleLatestIds st inp,
        apiCache := (fetchClosuresFromApi inp.fetchOutcome inp.now st.apiCache).2 } := by
  unfold pollCycle
  rw [hch]
  unfold cycleLatest at hlatest
  simp only [Bool.false_eq_true, if_false, hlatest]
  rfl

theorem fetchClosuresM_ok (o : FetchOutcome) (now : Nat) (c : ApiCache) :
    fetchClosuresM o now c = .ok (fetchClosuresFromApi o now c) := by
  cases o with
  | success p => cases p <;> rfl
  | timeout => rfl
  | transportError => rfl
  | decodeError => rfl
  | unexpectedError => rfl

theorem saveStateM_ok (w : WriteOutcome) : saveStateM w = .ok () := by
  cases w <;> rfl

theorem dispatchM_ok (send1 : Int → SendOutcome) :
    ∀ cs : List Int, dispatchM send1 cs = .ok (dispatch send1 cs) := by
  intro cs
  induction cs with
  | nil => rfl
  | cons c rest ih =>
    simp only [dispatchM, ih, dispatch]
    cases send1 c <;> rfl

theorem notifyLoopM_ok (prep : Nat → Bool) (send : Nat → Int → SendOutcome)
    (w : WriteOutcome) : ∀ (entries : List (String × Json)) (i : Nat) (chans : List Int),
    notifyLoopM prep send w i entries chans = .ok (notifyLoop prep send i entries chans) := by
  intro entries
  induction entries with
  | nil => intro i chans; rfl
  | cons e rest ih =>
    intro i chans
    obtain ⟨uid, cl⟩ := e
    by_cases hp : prep i
    · simp [notifyLoopM, eventPrep, hp, pyTry, ih, notifyLoop]
    · simp [notifyLoopM, eventPrep, dispatchM_ok, saveStateM_ok, pyTry, ih,
        notifyLoop, hp]

theorem reconcileM_ok (seen : Finset String) :
    ∀ latest : List Json, reconcileM seen latest = .ok (reconcileAux seen latest) := by
  intro latest
  induction latest with
  | nil => rfl
  | cons cl rest ih =>
    simp only [reconcileM, ih, reconcileAux]
    cases deriveIdentity cl <;> rfl

theorem pollCycleM_eq (st : BotState) (inp : PollInputs) :
    pollCycleM st inp = Except.ok (pollCycle st inp) := by
  unfold pollCycleM pollCycle
  cases hch : st.monitoringChannels.isEmpty
  · simp only [Bool.false_eq_true, if_false, fetchClosuresM_ok]
    cases hfr : (fetchClosuresFromApi inp.fetchOutcome inp.now st.apiCache).1.isEmpty
    · simp only [hfr, Bool.false_eq_true, if_false, reconcileM_ok, notifyLoopM_ok]
      have hsave1 : ∀ s : Finset String, (if s = ∅ then Except.ok ()
          else pyTry (saveStateM inp.writeOutcome) (fun _ => Except.ok ())) = Except.ok () := by
        intro s
        split
        · rfl
        · rw [saveStateM_ok]; rfl
      have hsave2 : ∀ s t : Finset String, (if s = t then Except.ok ()
          else pyTry (saveStateM inp.writeOutcome) (fun _ => Except.ok ())) = Except.ok () := by
        intro s t
        split
        · rfl
        · rw [saveStateM_ok]; rfl
      rw [hsave1, hsave2]
    · simp [hfr]
  · simp [hch]

theorem isEmpty_false_of_mem {α : Type} {x : α} {l : List α} (h : x ∈ l) :
    l.isEmpty = false := by
  cases l with
  | nil => exact absurd h (List.not_mem_nil x)
  | cons a t => rfl

theorem eq_nil_of_isEmpty {α : Type} {l : List α} (h : l.isEmpty = true) : l = [] := by
  cases l with
  | nil => rfl
  | cons a t => simp at h

/-- Claim C1: in a poll cycle, a record classified as new has its derived
identity in the seen set after the cycle exactly when the event was delivered
to at least one subscriber channel during that cycle; with zero deliveries the
identity stays absent and the same record is classified as new again by a
reconcile pass over the same fetched list with the updated seen set. -/
theorem events_c1_seen_iff_delivered (st : BotState) (inp : PollInputs)
    (uid : String) (cl : Json)
    (hch : st.monitoringChannels.isEmpty = false)
    (hnew : (uid, cl) ∈ cycleNewRecords st inp) :
    (uid ∈ (pollCycle st inp).seenClosureIds ↔ uid ∈ cycleDelivered st inp) ∧
    (uid ∉ cycleDelivered st inp →
      (uid, cl) ∈ (reconcileAux (pollCycle st inp).seenClosureIds (cycleLatest st inp)).1) := by
  obtain ⟨hmemL, hder, hnotseen⟩ := mem_reconcile_new.mp hnew
  have hlat : (cycleLatest st inp).isEmpty = false := isEmpty_false_of_mem hmemL
  have hinids : uid ∈ cycleLatestIds st inp := mem_reconcile_ids.mpr ⟨cl, hmemL, hder⟩
  have hids : cycleLatestIds st inp ≠ ∅ := by
    intro hempty
    rw [hempty] at hinids
    exact absurd hinids (Finset.not_mem_empty uid)
  rw [pollCycle_eq st inp hch hlat]
  simp only [if_neg hids]
  constructor
  · simp [Finset.mem_inter, Finset.mem_union, hinids, hnotseen]
  · intro hnd
    exact mem_reconcile_new.mpr ⟨hmemL, hder, by
      simp [Finset.mem_inter, Finset.mem_union, hinids, hnotseen, hnd]⟩

/-- Witness for C1: one monitored channel, one fetched record, every send
rejected as Forbidden — the identity is absent from the seen set afterwards
and the record is classified as new again over the same list. -/
theorem events_c1_seen_iff_delivered_witness :
    c1State.monitoringChannels.isEmpty = false ∧
    (c1uid, c1rec) ∈ cycleNewRecords c1State c1Inputs ∧
    ((c1uid ∈ (pollCycle c1State c1Inputs).seenClosureIds ↔
        c1uid ∈ cycleDelivered c1State c1Inputs) ∧
      (c1uid ∉ cycleDelivered c1State c1Inputs →
        (c1uid, c1rec) ∈
          (reconcileAux (pollCycle c1State c1Inputs).seenClosureIds
            (cycleLatest c1State c1Inputs)).1)) :=
  ⟨rfl, show (c1uid, c1rec) ∈ [(c1uid, c1rec)] from List.mem_singleton.mpr rfl,
    events_c1_seen_iff_delivered c1State c1Inputs c1uid c1rec rfl
      (show (c1uid, c1rec) ∈ [(c1uid, c1rec)] from List.mem_singleton.mpr rfl)⟩

/-- Claim C2 counterexample: a cycle whose fetch succeeds with the empty JSON
list returns early and prunes nothing — the stale identity "x" survives in the
seen set even though the just-fetched list derives no identities, contradicting
the claimed unconditional intersection after every successful fetch. -/
theorem events_c2_counterexample :
    fetchSucceeded c2Inputs.fetchOutcome = true ∧
    "x" ∈ c2State.seenClosureIds ∧
    cycleLatestIds c2State c2Inputs = ∅ ∧
    "x" ∈ (pollCycle c2State c2Inputs).seenClosureIds :=
  ⟨rfl, by decide, rfl, by decide⟩

/-- Claim C2 (amended): after a poll cycle that reaches the fetch (subscriber
set non-empty) and whose fetched list yields at least one derived identity,
the seen set equals the union of the prior seen set and the delivered
identities, intersected with the just-derived identity set; every prior seen
identity absent from the latest derived identities is dropped, and a record
whose identity is absent from the post-cycle seen set is classified as new by
any later reconcile pass over a list containing it. -/
theorem events_c2_amended (st : BotState) (inp : PollInputs)
    (hch : st.monitoringChannels.isEmpty = false)
    (hids : cycleLatestIds st inp ≠ ∅) :
    (pollCycle st inp).seenClosureIds =
      (st.seenClosureIds ∪ cycleDelivered st inp) ∩ cycleLatestIds st inp ∧
    (∀ x ∈ st.seenClosureIds, x ∉ cycleLatestIds st inp →
      x ∉ (pollCycle st inp).seenClosureIds) ∧
    (∀ (uid : String) (cl : Json) (later : List Json),
      deriveIdentity cl = some uid → cl ∈ later →
      uid ∉ (pollCycle st inp).seenClosureIds →
      (uid, cl) ∈ (reconcileAux (pollCycle st inp).seenClosureIds later).1) := by
  have hlat : (cycleLatest st inp).isEmpty = false := by
    cases hl : (cycleLatest st inp).isEmpty
    · rfl
    · exfalso
      apply hids
      have hn : cycleLatest st inp = [] := eq_nil_of_isEmpty hl
      unfold cycleLatestIds
      rw [hn]
      rfl
  rw [pollCycle_eq st inp hch hlat]
  simp only [if_neg hids]
  refine ⟨by trivial, ?_, ?_⟩
  · intro x hx hnx
    simp [Finset.mem_inter, hnx]
  · intro uid cl later hder hmem hnotin
    exact mem_reconcile_new.mpr ⟨hmem, hder, hnotin⟩

/-- Witness for the amended C2: a cycle fetching one record with successful
delivery, starting from a seen set holding one stale identity. -/
theorem events_c2_amended_witness :
    c2wState.monitoringChannels.isEmpty = false ∧
    cycleLatestIds c2wState c2wInputs ≠ ∅ ∧
    ((pollCycle c2wState c2wInputs).seenClosureIds =
        (c2wState.seenClosureIds ∪ cycleDelivered c2wState c2wInputs) ∩
          cycleLatestIds c2wState c2wInputs ∧
      (∀ x ∈ c2wState.seenClosureIds, x ∉ cycleLatestIds c2wState c2wInputs →
        x ∉ (pollCycle c2wState c2wInputs).seenClosureIds) ∧
      (∀ (uid : String) (cl : Json) (later : List Json),
        deriveIdentity cl = some uid → cl ∈ later →
        uid ∉ (pollCycle c2wState c2wInputs).seenClosureIds →
        (uid, cl) ∈
          (reconcileAux (pollCycle c2wState c2wInputs).seenClosureIds later).1)) :=
  ⟨rfl, by decide, events_c2_amended c2wState c2wInputs rfl (by decide)⟩

/-- Claim C3 counterexample: c3rec1 and c3rec2 agree on status, type and both
timestamps (each carrying all four fields), yet their derived identities
differ, because the name string also contains the date (and time) strings. -/
theorem events_c3_counterexample :
    c3rec1.get "status" = c3rec2.get "status" ∧
    c3rec1.get "type" = c3rec2.get "type" ∧
    c3rec1.get "timestamps" = c3rec2.get "timestamps" ∧
    (deriveIdentity c3rec1).isSome = true ∧
    (deriveIdentity c3rec2).isSome = true ∧
    deriveIdentity c3rec1 ≠ deriveIdentity c3rec2 :=
  ⟨rfl, rfl, rfl, rfl, rfl, by decide⟩

/-- Claim C3 (amended): identity derivation is deterministic, and for records
whose extracted name components are pipe-free strings with integer timestamps,
two records derive the same identity exactly when they agree on all six name
components: date, status, time, start, end and type. -/
theorem events_c3_amended (r1 r2 : Json)
    (d1 s1 t1 ty1 d2 s2 t2 ty2 : String) (a1 b1 a2 b2 : Int)
    (h1 : nameFields r1 = some (d1, s1, t1, a1, b1, ty1))
    (h2 : nameFields r2 = some (d2, s2, t2, a2, b2, ty2))
    (hd1 : '|' ∉ d1.data) (hs1 : '|' ∉ s1.data) (ht1 : '|' ∉ t1.data) (hty1 : '|' ∉ ty1.data)
    (hd2 : '|' ∉ d2.data) (hs2 : '|' ∉ s2.data) (ht2 : '|' ∉ t2.data) (hty2 : '|' ∉ ty2.data) :
    deriveIdentity r1 = deriveIdentity r1 ∧
    (deriveIdentity r1 = deriveIdentity r2 ↔
      (d1 = d2 ∧ s1 = s2 ∧ t1 = t2 ∧ a1 = a2 ∧ b1 = b2 ∧ ty1 = ty2)) := by
  refine ⟨rfl, ?_, ?_⟩
  · intro h
    simp only [deriveIdentity, h1, h2, Option.some.injEq] at h
    exact nameString_inj hd1 hs1 ht1 hty1 hd2 hs2 ht2 hty2 h
  · rintro ⟨rfl, rfl, rfl, rfl, rfl, rfl⟩
    simp [deriveIdentity, h1, h2]

/-- Witness for the amended C3: both directions of the iff at the concrete
records c3rec1 and c3rec2. -/
theorem events_c3_amended_witness :
    nameFields c3rec1 = some ("May 1", "Closure Scheduled", "10 to 4", 1, 2, "Primary Date") ∧
    nameFields c3rec2 = some ("May 2", "Closure Scheduled", "10 to 4", 1, 2, "Primary Date") ∧
    '|' ∉ "May 1".data ∧ '|' ∉ "Closure Scheduled".data ∧ '|' ∉ "10 to 4".data ∧
    '|' ∉ "Primary Date".data ∧ '|' ∉ "May 2".data ∧
    (deriveIdentity c3rec1 = deriveIdentity c3rec1 ∧
      (deriveIdentity c3rec1 = deriveIdentity c3rec2 ↔
        (("May 1" : String) = "May 2" ∧ ("Closure Scheduled" : String) = "Closure Scheduled" ∧
          ("10 to 4" : String) = "10 to 4" ∧ (1 : Int) = 1 ∧ (2 : Int) = 2 ∧
          ("Primary Date" : String) = "Primary Date"))) :=
  ⟨rfl, rfl, by decide, by decide, by decide, by decide, by decide,
    events_c3_amended c3rec1 c3rec2 _ _ _ _ _ _ _ _ _ _ _ _ rfl rfl (by decide) (by decide)
      (by decide) (by decide) (by decide) (by decide) (by decide) (by decide)⟩

/-- Claim C4: if all identities of the records a first reconcile pass
classifies as new are added to the seen set, a second pass over the identical
record list classifies zero records as new. -/
theorem events_c4_second_pass_empty (latest : List Json) (seen : Finset String) :
    (reconcileAux
      (seen ∪ ((reconcileAux seen latest).1.map Prod.fst).toFinset) latest).1 = [] := by
  rw [List.eq_nil_iff_forall_not_mem]
  rintro ⟨uid, cl⟩ hmem
  obtain ⟨hmemL, hder, hnot⟩ := mem_reconcile_new.mp hmem
  simp only [Finset.mem_union, List.mem_toFinset, List.mem_map] at hnot
  push_neg at hnot
  obtain ⟨hnseen, hnmap⟩ := hnot
  exact hnmap (uid, cl) (mem_reconcile_new.mpr ⟨hmemL, hder, hnseen⟩) rfl

/-- Claim C5: during dispatch of one event, every subscriber is attempted
independently (the success count counts all successful sends regardless of
other subscribers' failures), a subscriber with a permanent failure
(unresolvable channel, Forbidden, NotFound) is removed from the kept channel
list, and when at least one subscriber succeeded the success count is positive
so the event identity is recorded as delivered. -/
theorem events_c5_partial_delivery_isolation :
    (∀ (send1 : Int → SendOutcome) (cs : List Int),
      (dispatch send1 cs).1 = cs.countP (fun c => decide (send1 c = .success))) ∧
    (∀ (send1 : Int → SendOutcome) (cs : List Int) (c : Int), c ∈ cs →
      (send1 c = .forbidden ∨ send1 c = .notFound ∨ send1 c = .unresolvable) →
      c ∉ (dispatch send1 cs).2) ∧
    (∀ (send1 : Int → SendOutcome) (cs : List Int) (c : Int), c ∈ cs →
      send1 c = .success → 0 < (dispatch send1 cs).1) ∧
    (∀ (prep : Nat → Bool) (send : Nat → Int → SendOutcome) (uid : String) (cl : Json)
      (chans : List Int), prep 0 = false → (∃ c ∈ chans, send 0 c = .success) →
      uid ∈ (notifyLoop prep send 0 [(uid, cl)] chans).1) := by
  have hcount : ∀ (send1 : Int → SendOutcome) (cs : List Int) (c : Int), c ∈ cs →
      send1 c = .success → 0 < (dispatch send1 cs).1 := by
    intro send1 cs c hc hsucc
    rw [dispatch_count]
    exact List.countP_pos_iff.mpr ⟨c, hc, by simp [hsucc]⟩
  refine ⟨dispatch_count, ?_, hcount, ?_⟩
  · intro send1 cs c hc hout
    rw [dispatch_keep]
    simp only [List.mem_filter]
    rintro ⟨-, hkeep⟩
    rcases hout with h | h | h <;> rw [h] at hkeep <;> simp [keepsChannel] at hkeep
  · intro prep send uid cl chans hprep ⟨c, hc, hsucc⟩
    have hpos : 0 < (dispatch (send 0) chans).1 := hcount (send 0) chans c hc hsucc
    simp only [notifyLoop, hprep, Bool.false_eq_true, if_false, hpos, if_pos hpos]
    exact Finset.mem_insert_self uid _

/-- Witness for C5: two channels where channel 2 fails permanently and channel
1 succeeds — channel 2 is removed, the success count is positive, and the
event is recorded as delivered. -/
theorem events_c5_partial_delivery_isolation_witness :
    (2 : Int) ∈ [2, 1] ∧ c5send 2 = .forbidden ∧ (1 : Int) ∈ [2, 1] ∧ c5send 1 = .success ∧
    2 ∉ (dispatch c5send [2, 1]).2 ∧ 0 < (dispatch c5send [2, 1]).1 ∧
    "e" ∈ (notifyLoop (fun _ => false) (fun _ => c5send) 0 [("e", Json.null)] [2, 1]).1 :=
  ⟨by decide, by decide, by decide, by decide,
    events_c5_partial_delivery_isolation.2.1 c5send [2, 1] 2 (by decide) (Or.inl (by decide)),
    events_c5_partial_delivery_isolation.2.2.1 c5send [2, 1] 1 (by decide) (by decide),
    events_c5_partial_delivery_isolation.2.2.2 (fun _ => false) (fun _ => c5send) "e"
      Json.null [2, 1] rfl ⟨1, by decide, by decide⟩⟩

/-- Claim C6 counterexample: with a non-empty cache of two records, a fetch
that succeeds with a non-list payload returns the empty list, not the cached
records — the cache fallback applies only to the exception paths. -/
theorem events_c6_counterexample :
    c6Cache.cached ≠ [] ∧
    (fetchClosuresFromApi (.success (.str "oops")) 9 c6Cache).1 = [] ∧
    (fetchClosuresFromApi (.success (.str "oops")) 9 c6Cache).1 ≠ c6Cache.cached := by
  refine ⟨?_, rfl, ?_⟩ <;> simp [c6Cache, fetchClosuresFromApi]

/-- Claim C6 (amended): the cached fetch never raises (it always returns ok);
on timeout, transport, decode or unexpected errors it returns the cached list
when non-empty and the empty list otherwise, leaving the cache untouched; on
success with a list payload it returns the list and refreshes the cached
payload and last-fetch time; on success with a non-list payload it returns the
empty list regardless of the cache, leaving the cache untouched. -/
theorem events_c6_fetch_behavior :
    (∀ (o : FetchOutcome) (now : Nat) (c : ApiCache),
      fetchClosuresM o now c = .ok (fetchClosuresFromApi o now c)) ∧
    (∀ (now : Nat) (c : ApiCache) (items : List Json),
      fetchClosuresFromApi (.success (.arr items)) now c =
        (items, { cached := items, lastFetch := some now })) ∧
    (∀ (now : Nat) (c : ApiCache),
      fetchClosuresFromApi .timeout now c = (if c.cached.isEmpty then [] else c.cached, c) ∧
      fetchClosuresFromApi .transportError now c =
        (if c.cached.isEmpty then [] else c.cached, c) ∧
      fetchClosuresFromApi .decodeError now c =
        (if c.cached.isEmpty then [] else c.cached, c) ∧
      fetchClosuresFromApi .unexpectedError now c =
        (if c.cached.isEmpty then [] else c.cached, c)) ∧
    (∀ (now : Nat) (c : ApiCache),
      fetchClosuresFromApi (.success .null) now c = ([], c) ∧
      (∀ b : Bool, fetchClosuresFromApi (.success (.bool b)) now c = ([], c)) ∧
      (∀ n : Int, fetchClosuresFromApi (.success (.int n)) now c = ([], c)) ∧
      (∀ s : String, fetchClosuresFromApi (.success (.str s)) now c = ([], c)) ∧
      (∀ fields : List (String × Json),
        fetchClosuresFromApi (.success (.obj fields)) now c = ([], c))) :=
  ⟨fetchClosuresM_ok, fun _ _ _ => rfl,
    fun _ _ => ⟨rfl, rfl, rfl, rfl⟩,
    fun _ _ => ⟨rfl, fun _ => rfl, fun _ => rfl, fun _ => rfl, fun _ => rfl⟩⟩

/-- Claim C7 counterexample: a record carrying valid timestamps but no status
and no type is not skipped — it is processed with "?" placeholders, its
identity is collected, and it is classified as new. -/
theorem events_c7_counterexample :
    c7rec.get "status" = none ∧
    c7rec.get "type" = none ∧
    (reconcileAux ∅ [c7rec]).1 = [("?|?|?|1|2|?", c7rec)] ∧
    "?|?|?|1|2|?" ∈ (reconcileAux ∅ [c7rec]).2 :=
  ⟨rfl, rfl, rfl, by decide⟩

/-- Claim C7 (amended): a record is skipped exactly when its timestamps are
malformed (item not a dict; timestamps missing, falsy or not a dict; start or
end missing, null or not int()-convertible) — missing status, type, date or
time never cause a skip; every non-skipped record of the batch is processed
(its identity is collected and it is classified as new exactly when unseen);
and the per-item loop never raises. -/
theorem events_c7_malformed_skip :
    (∀ cl : Json, deriveIdentity cl = none ↔ tsMalformed cl = true) ∧
    (∀ (latest : List Json) (seen : Finset String) (cl : Json) (uid : String),
      cl ∈ latest → deriveIdentity cl = some uid →
      uid ∈ (reconcileAux seen latest).2 ∧
        ((uid, cl) ∈ (reconcileAux seen latest).1 ↔ uid ∉ seen)) ∧
    (∀ (seen : Finset String) (latest : List Json),
      reconcileM seen latest = .ok (reconcileAux seen latest)) := by
  refine ⟨deriveIdentity_none_iff, ?_, reconcileM_ok⟩
  intro latest seen cl uid hmem hder
  refine ⟨mem_reconcile_ids.mpr ⟨cl, hmem, hder⟩, ?_, ?_⟩
  · intro h
    exact (mem_reconcile_new.mp h).2.2
  · intro h
    exact mem_reconcile_new.mpr ⟨hmem, hder, h⟩

/-- Witness for the amended C7: a batch with one record lacking timestamps and
one lacking status — the latter is processed and classified as new. -/
theorem events_c7_malformed_skip_witness :
    c7rec ∈ [c7bad, c7rec] ∧ deriveIdentity c7rec = some "?|?|?|1|2|?" ∧
    ("?|?|?|1|2|?" ∈ (reconcileAux ∅ [c7bad, c7rec]).2 ∧
      (("?|?|?|1|2|?", c7rec) ∈ (reconcileAux ∅ [c7bad, c7rec]).1 ↔
        "?|?|?|1|2|?" ∉ (∅ : Finset String))) :=
  ⟨List.mem_cons_of_mem _ (List.mem_cons_self _ _), rfl,
    events_c7_malformed_skip.2.1 [c7bad, c7rec] ∅ c7rec "?|?|?|1|2|?"
      (List.mem_cons_of_mem _ (List.mem_cons_self _ _)) rfl⟩

/-- Claim C8: one poll-cycle invocation never propagates an exception — for
every state and every combination of fetch, preparation, send and write
outcomes, the cycle with explicit exception flow returns ok with exactly the
state transition of the pure cycle. -/
theorem events_c8_no_exception_escapes (st : BotState) (inp : PollInputs) :
    pollCycleM st inp = Except.ok (pollCycle st inp) :=
  pollCycleM_eq st inp

/-- Claim C9: loading from a missing or empty state file yields the empty
state (no subscribers, empty seen set, no managed closures) without raising,
malformed JSON resets to the same empty state, and loading never raises for
any file outcome. -/
theorem events_c9_load_tolerates_failures :
    emptyPersistedState.monitoringChannels = [] ∧
    emptyPersistedState.seenClosureIds = ∅ ∧
    emptyPersistedState.managedClosures = [] ∧
    loadStateM .missing = .ok emptyPersistedState ∧
    loadStateM .emptyFile = .ok emptyPersistedState ∧
    loadStateM .badJson = .ok emptyPersistedState ∧
    (∀ fo : FileOutcome, ∃ s : PersistedState, loadStateM fo = .ok s) := by
  refine ⟨rfl, rfl, rfl, rfl, rfl, rfl, ?_⟩
  intro fo
  cases fo with
  | missing => exact ⟨emptyPersistedState, rfl⟩
  | emptyFile => exact ⟨emptyPersistedState, rfl⟩
  | readError => exact ⟨emptyPersistedState, rfl⟩
  | badJson => exact ⟨emptyPersistedState, rfl⟩
  | content j =>
    unfold loadStateM blockingLoadState
    cases hp : processLoadedState j with
    | ok s => exact ⟨s, by simp [pyTry, hp]⟩
    | error e => exact ⟨emptyPersistedState, by simp [pyTry, hp]⟩

/-- Claim C10: save_state catches every failure of the underlying write and
returns normally, so the save-error branch of add_managed_road_closure is
unreachable and the in-memory mutation (the appended closure) is in effect
for every write outcome. -/
theorem events_c10_save_never_propagates :
    (∀ w : WriteOutcome, saveStateM w = .ok ()) ∧
    (∀ (st : BotState) (closureData : Json) (w : WriteOutcome),
      (addManagedRoadClosure st closureData w).2 = .savedOk ∧
      (addManagedRoadClosure st closureData w).1.managedClosures =
        st.managedClosures ++ [closureData]) := by
  refine ⟨saveStateM_ok, ?_⟩
  intro st c w
  unfold addManagedRoadClosure
  rw [saveStateM_ok]
  exact ⟨rfl, rfl⟩

end StarshipBot

